import Mathlib

/-!
Shallow embedding of the blood-donor registration backend (script.js):
the startup initializer, the donor-listing handler and the donor-registration
handler, together with the three validation regexes embedded as regular
expressions over characters and matched by Brzozowski derivatives.
-/

namespace BloodDonor

/-! Regular expressions with character classes, as used by the three
validation patterns in the registration handler. -/

inductive Regex where
  | fail : Regex
  | eps : Regex
  | cls : (Char → Bool) → Regex
  | seq : Regex → Regex → Regex
  | alt : Regex → Regex → Regex
  | star : Regex → Regex

/-- Optional occurrence, as written `X?` in the source patterns. -/
def Regex.opt (a : Regex) : Regex := .alt .eps a

/-- One or more occurrences, as written `X+` in the source patterns. -/
def Regex.plus (a : Regex) : Regex := .seq a (.star a)

/-- Exactly n occurrences, as written in the source patterns with a counted
repetition such as 8 or 17 repetitions of a digit. -/
def Regex.repN : Nat → Regex → Regex
  | 0, _ => .eps
  | n + 1, a => .seq a (Regex.repN n a)

/-- Does the regex accept the empty string? -/
def nullable : Regex → Bool
  | .fail => false
  | .eps => true
  | .cls _ => false
  | .seq a b => nullable a && nullable b
  | .alt a b => nullable a || nullable b
  | .star _ => true

/-- Brzozowski derivative of a regex by one character. -/
def deriv : Regex → Char → Regex
  | .fail, _ => .fail
  | .eps, _ => .fail
  | .cls p, c => if p c then .eps else .fail
  | .seq a b, c =>
      if nullable a then .alt (.seq (deriv a c) b) (deriv b c)
      else .seq (deriv a c) b
  | .alt a b, c => .alt (deriv a c) (deriv b c)
  | .star a, c => .seq (deriv a c) (.star a)

/-- Anchored matching of a whole character list, the semantics of the
JavaScript test of an anchored pattern. -/
def rmatch : Regex → List Char → Bool
  | r, [] => nullable r
  | r, c :: s => rmatch (deriv r c) s

/-- Declarative language membership for the regexes. -/
inductive RMatch : Regex → List Char → Prop where
  | eps : RMatch .eps []
  | cls {p : Char → Bool} {c : Char} : p c = true → RMatch (.cls p) [c]
  | seq {a b : Regex} {s t : List Char} :
      RMatch a s → RMatch b t → RMatch (.seq a b) (s ++ t)
  | altL {a b : Regex} {s : List Char} : RMatch a s → RMatch (.alt a b) s
  | altR {a b : Regex} {s : List Char} : RMatch b s → RMatch (.alt a b) s
  | starNil {a : Regex} : RMatch (.star a) []
  | starCons {a : Regex} {s t : List Char} :
      RMatch a s → RMatch (.star a) t → RMatch (.star a) (s ++ t)

/-! Character classes of the source patterns. -/

/-- Characters matched by the JavaScript whitespace class, used both by the
whitespace removal on the phone number and inside the patterns. -/
def jsWhitespace (c : Char) : Bool :=
  c = '\t' || c = '\n' || c = '\u000b' || c = '\u000c' || c = '\r' || c = ' ' ||
  c = '\u00a0' || c = '\u1680' || ('\u2000' ≤ c && c ≤ '\u200a') ||
  c = '\u2028' || c = '\u2029' || c = '\u202f' || c = '\u205f' ||
  c = '\u3000' || c = '\ufeff'

/-- Characters allowed in the three parts of the email pattern: anything that
is neither whitespace nor an at sign. -/
def emailPartChar (c : Char) : Bool := !(jsWhitespace c || c = '@')

/-- Digits 3 through 9, the first digit of the subscriber number in the phone
pattern. -/
def digit39 (c : Char) : Bool := '3' ≤ c && c ≤ '9'

/-- Embedding of the email pattern of the registration handler: one or more
non-whitespace non-at characters, an at sign, one or more such characters, a
dot, and one or more such characters, anchored at both ends. -/
def emailRegex : Regex :=
  .seq (.plus (.cls emailPartChar))
  (.seq (.cls (· = '@'))
  (.seq (.plus (.cls emailPartChar))
  (.seq (.cls (· = '.'))
  (.plus (.cls emailPartChar)))))

/-- Embedding of the Bangladeshi phone pattern of the registration handler:
an optional plus sign, the character 8 twice, an optional 0, an optional
whitespace character, a 1, a digit 3 through 9, and 8 more digits, anchored
at both ends. -/
def phoneRegex : Regex :=
  .seq (.opt (.cls (· = '+')))
  (.seq (.cls (· = '8'))
  (.seq (.cls (· = '8'))
  (.seq (.opt (.cls (· = '0')))
  (.seq (.opt (.cls jsWhitespace))
  (.seq (.cls (· = '1'))
  (.seq (.cls digit39)
  (.repN 8 (.cls Char.isDigit))))))))

/-- Embedding of the national-ID pattern of the registration handler:
exactly 17 digits, anchored at both ends. -/
def nidRegex : Regex := .repN 17 (.cls Char.isDigit)

/-- Anchored test of a pattern against a whole string. -/
def regexTest (r : Regex) (s : String) : Bool := rmatch r s.data

/-- The email test of the registration handler. -/
def emailRegexTest (s : String) : Bool := regexTest emailRegex s

/-- Removal of every whitespace character from a string, applied by the
handler to the phone number before testing it. -/
def stripWhitespace (s : String) : String :=
  ⟨s.data.filter (fun c => !jsWhitespace c)⟩

/-- The phone test of the registration handler: the phone pattern applied to
the phone string with all whitespace removed. -/
def phoneCheck (s : String) : Bool := regexTest phoneRegex (stripWhitespace s)

/-- The national-ID test of the registration handler. -/
def nidRegexTest (s : String) : Bool := regexTest nidRegex s

/-! Data model: rows of the three tables exercised by the in-scope handlers,
and the store state. Row identifiers of the admin and inventory tables are
elided; admin rows are identified by their unique username and inventory rows
by their unique blood type. Timestamps are modelled as natural numbers. -/

structure DonorRow where
  id : Nat
  firstName : String
  lastName : String
  email : String
  phone : String
  dob : String
  bloodType : String
  gender : String
  address : String
  city : String
  zipCode : String
  nidNumber : Option String
  nidVerified : Bool
  nidData : Option String
  registrationDate : Nat
  status : String
  registeredBy : String
deriving DecidableEq

structure AdminRow where
  username : String
  password : String
  email : String
  name : String
  role : String
deriving DecidableEq

structure InventoryRow where
  bloodType : String
  units : Nat
  lastUpdated : Nat
deriving DecidableEq

structure DBState where
  donors : List DonorRow
  admins : List AdminRow
  inventory : List InventoryRow
  nextId : Nat
deriving DecidableEq

/-- The freshly created empty store: no rows, first generated identifier 1. -/
def emptyState : DBState := { donors := [], admins := [], inventory := [], nextId := 1 }

/-! Startup initializer. -/

/-- The hardcoded default admin seeded at startup; its role takes the column
default. -/
def defaultAdmin : AdminRow :=
  { username := "admin", password := "admin123",
    email := "admin@roktokona.org", name := "সিস্টেম অ্যাডমিন", role := "admin" }

/-- The 8 canonical blood types seeded into the inventory at startup. -/
def bloodTypes : List String := ["O+", "O-", "A+", "A-", "B+", "B-", "AB+", "AB-"]

/-- Check-then-insert of the default admin, keyed on its username. -/
def seedAdmin (s : DBState) : DBState :=
  if s.admins.any (fun a => a.username == defaultAdmin.username) then s
  else { s with admins := s.admins ++ [defaultAdmin] }

/-- Insert-or-ignore of one zero-count inventory row, keyed on blood type. -/
def seedInventoryType (now : Nat) (s : DBState) (t : String) : DBState :=
  if s.inventory.any (fun r => r.bloodType == t) then s
  else { s with inventory := s.inventory ++ [{ bloodType := t, units := 0, lastUpdated := now }] }

/-- The startup initializer: seed the default admin if absent, then
insert-or-ignore one zero-count inventory row per canonical blood type. -/
def initDb (now : Nat) (s : DBState) : DBState :=
  bloodTypes.foldl (seedInventoryType now) (seedAdmin s)

/-! Donor listing handler. -/

/-- The donor listing handler: all donor rows ordered by registration
timestamp, most recent first. The per-row display transform of the route
(deserializing the verification payload, localizing the date) is
row-by-row and order preserving, so the row list itself is the model. -/
def getDonors (s : DBState) : List DonorRow :=
  s.donors.mergeSort (fun a b => b.registrationDate ≤ a.registrationDate)

/-! Donor registration handler. -/

/-- A registration request body: each field either absent or a string. -/
structure RegistrationPayload where
  firstName : Option String
  lastName : Option String
  email : Option String
  phone : Option String
  dob : Option String
  bloodType : Option String
  gender : Option String
  address : Option String
  city : Option String
  zipCode : Option String
  nidNumber : Option String
  registeredBy : Option String
deriving DecidableEq

/-- JavaScript truthiness of a destructured body field: present and not the
empty string. -/
def truthy : Option String → Bool
  | none => false
  | some s => !(s == "")

/-- The outcome of the registration route as seen by the client. -/
inductive RegisterResult where
  | badRequest (message : String)
  | serverError (message : String)
  | success (message : String) (donorId : Nat) (nidStatus : String)
deriving DecidableEq

def missingFieldsMsg : String := "দয়া করে সকল আবশ্যক তথ্য প্রদান করুন"

def invalidEmailMsg : String := "সঠিক ইমেইল ঠিকানা দিন"

def invalidPhoneMsg : String := "সঠিক মোবাইল নম্বর দিন (বাংলাদেশি ফরম্যাট)"

def invalidNidMsg : String := "সঠিক ১৭ ডিজিটের NID নম্বর দিন"

def registerStoreErrorMsg : String := "নিবন্ধন প্রক্রিয়ায় সমস্যা হয়েছে"

def registerSuccessMsg : String := "রক্তদাতা সফলভাবে নিবন্ধিত হয়েছে"

def nidStatusPending : String := "পেন্ডিং"

def nidStatusNone : String := "নেই"

/-- The required-field guard of the registration handler. -/
def requiredFieldsPresent (p : RegistrationPayload) : Bool :=
  truthy p.firstName && truthy p.lastName && truthy p.email && truthy p.phone &&
  truthy p.bloodType && truthy p.gender && truthy p.city

/-- The donor insert. Every column declared NOT NULL must receive a non-null
value, otherwise the statement fails and nothing is stored; the generated row
identifier and the new state are returned on success. The registrar tag
defaults to user when the field is absent or empty, status and the
registration timestamp take their column defaults. -/
def insertDonor (now : Nat) (p : RegistrationPayload) (nidVerified : Bool)
    (nidData : Option String) (s : DBState) : Option (Nat × DBState) :=
  match p.firstName, p.lastName, p.email, p.phone, p.dob, p.bloodType,
      p.gender, p.address, p.city, p.zipCode with
  | some fn, some ln, some em, some ph, some db, some bt, some g, some ad, some ci, some z =>
      let row : DonorRow :=
        { id := s.nextId, firstName := fn, lastName := ln, email := em, phone := ph,
          dob := db, bloodType := bt, gender := g, address := ad, city := ci, zipCode := z,
          nidNumber := p.nidNumber, nidVerified := nidVerified, nidData := nidData,
          registrationDate := now, status := "Active",
          registeredBy :=
            match p.registeredBy with
            | some r => if r == "" then "user" else r
            | none => "user" }
      some (s.nextId, { s with donors := s.donors ++ [row], nextId := s.nextId + 1 })
  | _, _, _, _, _, _, _, _, _, _ => none

/-- The secondary write of the registration handler: add one unit and refresh
the timestamp on every inventory row whose blood type equals the registered
one. -/
def updateInventory (now : Nat) (bt : String) (s : DBState) : DBState :=
  { s with inventory := s.inventory.map (fun r =>
      if r.bloodType == bt then { r with units := r.units + 1, lastUpdated := now } else r) }

/-- The registration handler: the four validation gates in source order, then
the donor insert, then on insert success the inventory update and the success
response. -/
def registerDonor (now : Nat) (p : RegistrationPayload) (s : DBState) :
    RegisterResult × DBState :=
  if !requiredFieldsPresent p then
    (.badRequest missingFieldsMsg, s)
  else if !emailRegexTest (p.email.getD "") then
    (.badRequest invalidEmailMsg, s)
  else if !phoneCheck (p.phone.getD "") then
    (.badRequest invalidPhoneMsg, s)
  else if truthy p.nidNumber && !nidRegexTest (p.nidNumber.getD "") then
    (.badRequest invalidNidMsg, s)
  else
    let nidVerified := if truthy p.nidNumber then false else false
    let nidData : Option String := none
    match insertDonor now p nidVerified nidData s with
    | none => (.serverError registerStoreErrorMsg, s)
    | some (donorId, s1) =>
        let s2 := updateInventory now (p.bloodType.getD "") s1
        (.success registerSuccessMsg donorId
          (if truthy p.nidNumber then nidStatusPending else nidStatusNone), s2)

/-- The conjunction of the four validation gates of the registration
handler. -/
def validationPasses (p : RegistrationPayload) : Bool :=
  requiredFieldsPresent p &&
  emailRegexTest (p.email.getD "") &&
  phoneCheck (p.phone.getD "") &&
  !(truthy p.nidNumber && !nidRegexTest (p.nidNumber.getD ""))

/-- States reachable from the fresh store by the in-scope operations: the
startup initializer and the registration handler (the listing handler does
not write). -/
inductive Reachable : DBState → Prop where
  | empty : Reachable emptyState
  | init {s : DBState} (now : Nat) : Reachable s → Reachable (initDb now s)
  | register {s : DBState} (now : Nat) (p : RegistrationPayload) :
      Reachable s → Reachable (registerDonor now p s).2

/-- Shape claimed for the phone check by the specification: a plus sign,
8, 8, 0, then 1, a digit 3 through 9, and 8 more digits. Stated from the
specification words, to be compared with the pattern in the source. -/
def claimedPhoneShape : Regex :=
  .seq (.cls (· = '+'))
  (.seq (.cls (· = '8'))
  (.seq (.cls (· = '8'))
  (.seq (.cls (· = '0'))
  (.seq (.cls (· = '1'))
  (.seq (.cls digit39)
  (.repN 8 (.cls Char.isDigit)))))))

/-- The exact shape accepted by the email pattern: three non-empty runs of
non-whitespace non-at characters, joined by an at sign and then a dot. -/
def EmailShape (l : List Char) : Prop :=
  ∃ a b c : List Char,
    l = a ++ '@' :: (b ++ '.' :: c) ∧
    a ≠ [] ∧ b ≠ [] ∧ c ≠ [] ∧
    (∀ ch ∈ a, emailPartChar ch = true) ∧
    (∀ ch ∈ b, emailPartChar ch = true) ∧
    (∀ ch ∈ c, emailPartChar ch = true)

/-- The exact shape accepted by the phone pattern on whitespace-free input:
an optional plus sign, the digit 8 twice, an optional 0, then 1, a digit 3
through 9, and 8 more digits. -/
def PhoneShape (l : List Char) : Prop :=
  ∃ (plusPart zeroPart : List Char) (d : Char) (ds : List Char),
    l = plusPart ++ '8' :: '8' :: (zeroPart ++ '1' :: d :: ds) ∧
    (plusPart = [] ∨ plusPart = ['+']) ∧
    (zeroPart = [] ∨ zeroPart = ['0']) ∧
    digit39 d = true ∧ ds.length = 8 ∧ ∀ c ∈ ds, c.isDigit = true

/-! Concrete inputs used to instantiate the theorems, following the worked
example of the specification. -/

/-- The worked registration example of the specification, completed with the
optional columns the donors table declares NOT NULL. -/
def examplePayload : RegistrationPayload :=
  { firstName := some "Karim", lastName := some "Uddin", email := some "k@example.com",
    phone := some "+8801711112222", dob := some "1990-01-01", bloodType := some "O+",
    gender := some "Male", address := some "House 1", city := some "Dhaka",
    zipCode := some "1200", nidNumber := none, registeredBy := none }

/-- The store right after first startup. -/
def seededState : DBState := initDb 0 emptyState

/-- A request body with every field absent. -/
def emptyPayload : RegistrationPayload :=
  { firstName := none, lastName := none, email := none, phone := none, dob := none,
    bloodType := none, gender := none, address := none, city := none, zipCode := none,
    nidNumber := none, registeredBy := none }

/-- The worked example with an invalid phone number. -/
def badPhonePayload : RegistrationPayload := { examplePayload with phone := some "12345" }

/-- The worked example with an invalid email address. -/
def badEmailPayload : RegistrationPayload := { examplePayload with email := some "invalid-email" }

/-- The worked example with a national ID that is not 17 digits. -/
def badNidPayload : RegistrationPayload := { examplePayload with nidNumber := some "123" }

/-- An otherwise empty body carrying a malformed national ID. -/
def missingWithNidPayload : RegistrationPayload := { emptyPayload with nidNumber := some "123" }

/-- The worked example with a blood type outside the canonical eight. -/
def unknownTypePayload : RegistrationPayload := { examplePayload with bloodType := some "X+" }

/-- The worked example without a date of birth. -/
def noDobPayload : RegistrationPayload := { examplePayload with dob := none }

/-- The worked example carrying a well-formed 17-digit national ID. -/
def nidPayload : RegistrationPayload :=
  { examplePayload with nidNumber := some "12345678901234567" }

/-- The store after first startup followed by one registration carrying a
national ID. -/
def reachedState : DBState := (registerDonor 5 nidPayload seededState).2

/-- The donor row stored by that registration. -/
def insertedRow : DonorRow :=
  { id := 1, firstName := "Karim", lastName := "Uddin", email := "k@example.com",
    phone := "+8801711112222", dob := "1990-01-01", bloodType := "O+", gender := "Male",
    address := "House 1", city := "Dhaka", zipCode := "1200",
    nidNumber := some "12345678901234567", nidVerified := false, nidData := none,
    registrationDate := 5, status := "Active", registeredBy := "user" }

/-- Structural invariant of every state reachable by the in-scope
operations: the admin table holds at most the one seeded default admin, the
inventory types are distinct canonical blood types, and every stored donor
has the verification flag false and the verification payload empty. -/
def StateWf (s : DBState) : Prop :=
  (∀ a ∈ s.admins, a = defaultAdmin) ∧
  s.admins.length ≤ 1 ∧
  (s.inventory.map (fun r => r.bloodType)).Nodup ∧
  (∀ r ∈ s.inventory, r.bloodType ∈ bloodTypes) ∧
  (∀ d ∈ s.donors, d.nidVerified = false ∧ d.nidData = none)

/-! Correctness of the derivative matcher with respect to the declarative
language. -/

theorem RMatch_fail_elim {l : List Char} (h : RMatch .fail l) : False := by
  cases h

theorem RMatch_eps_iff {l : List Char} : RMatch .eps l ↔ l = [] := by
  constructor
  · intro h; cases h; rfl
  · rintro rfl; exact .eps

theorem RMatch_cls_iff {p : Char → Bool} {l : List Char} :
    RMatch (.cls p) l ↔ ∃ c, l = [c] ∧ p c = true := by
  constructor
  · intro h
    cases h with
    | cls hp => exact ⟨_, rfl, hp⟩
  · rintro ⟨c, rfl, hp⟩
    exact .cls hp

theorem RMatch_seq_iff {a b : Regex} {l : List Char} :
    RMatch (.seq a b) l ↔ ∃ u v, l = u ++ v ∧ RMatch a u ∧ RMatch b v := by
  constructor
  · intro h
    cases h with
    | seq ha hb => exact ⟨_, _, rfl, ha, hb⟩
  · rintro ⟨u, v, rfl, ha, hb⟩
    exact .seq ha hb

theorem RMatch_alt_iff {a b : Regex} {l : List Char} :
    RMatch (.alt a b) l ↔ RMatch a l ∨ RMatch b l := by
  constructor
  · intro h
    cases h with
    | altL ha => exact .inl ha
    | altR hb => exact .inr hb
  · rintro (ha | hb)
    · exact .altL ha
    · exact .altR hb

theorem RMatch_opt_iff {a : Regex} {l : List Char} :
    RMatch (Regex.opt a) l ↔ l = [] ∨ RMatch a l := by
  rw [Regex.opt, RMatch_alt_iff, RMatch_eps_iff]

theorem nullable_iff (r : Regex) : nullable r = true ↔ RMatch r [] := by
  induction r with
  | fail =>
      simp only [nullable, Bool.false_eq_true, false_iff]
      exact RMatch_fail_elim
  | eps =>
      simp only [nullable, true_iff]
      exact .eps
  | cls p =>
      simp only [nullable, Bool.false_eq_true, false_iff]
      intro h
      rcases RMatch_cls_iff.mp h with ⟨c, hc, _⟩
      cases hc
  | seq a b iha ihb =>
      simp only [nullable, Bool.and_eq_true, iha, ihb]
      constructor
      · rintro ⟨ha, hb⟩
        exact RMatch.seq ha hb
      · intro h
        rcases RMatch_seq_iff.mp h with ⟨u, v, huv, ha, hb⟩
        rcases List.append_eq_nil.mp huv.symm with ⟨rfl, rfl⟩
        exact ⟨ha, hb⟩
  | alt a b iha ihb =>
      simp only [nullable, Bool.or_eq_true, iha, ihb, RMatch_alt_iff]
  | star a ih =>
      simp only [nullable, true_iff]
      exact .starNil

theorem deriv_sound {r : Regex} {c : Char} {s : List Char}
    (h : RMatch (deriv r c) s) : RMatch r (c :: s) := by
  induction r generalizing s with
  | fail => exact absurd h RMatch_fail_elim
  | eps => exact absurd h RMatch_fail_elim
  | cls p =>
      by_cases hp : p c = true
      · simp only [deriv, hp, if_true] at h
        rcases RMatch_eps_iff.mp h with rfl
        exact .cls hp
      · simp only [deriv, hp, if_false] at h
        exact absurd h RMatch_fail_elim
  | seq a b iha ihb =>
      simp only [deriv] at h
      by_cases hn : nullable a = true
      · simp only [hn, if_true] at h
        rcases RMatch_alt_iff.mp h with h1 | h2
        · rcases RMatch_seq_iff.mp h1 with ⟨u, v, rfl, ha, hb⟩
          exact RMatch.seq (iha ha) hb
        · exact RMatch.seq ((nullable_iff a).mp hn) (ihb h2)
      · simp only [hn, if_false] at h
        rcases RMatch_seq_iff.mp h with ⟨u, v, rfl, ha, hb⟩
        exact RMatch.seq (iha ha) hb
  | alt a b iha ihb =>
      simp only [deriv] at h
      rcases RMatch_alt_iff.mp h with h1 | h2
      · exact .altL (iha h1)
      · exact .altR (ihb h2)
  | star a ih =>
      simp only [deriv] at h
      rcases RMatch_seq_iff.mp h with ⟨u, v, rfl, ha, hst⟩
      exact RMatch.starCons (ih ha) hst

theorem deriv_complete {r : Regex} {l : List Char} (h : RMatch r l) :
    ∀ {c : Char} {s : List Char}, l = c :: s → RMatch (deriv r c) s := by
  induction h with
  | eps =>
      intro c s hcs
      cases hcs
  | cls hp =>
      intro c s hcs
      injection hcs with h1 h2
      subst h1
      rcases h2.symm with rfl
      simp only [deriv, hp, if_true]
      exact .eps
  | seq ha hb iha ihb =>
      intro c s hcs
      rename_i a b u v
      cases u with
      | nil =>
          simp only [List.nil_append] at hcs
          have hn : nullable a = true := (nullable_iff a).mpr ha
          simp only [deriv, hn, if_true]
          exact .altR (ihb hcs)
      | cons x u' =>
          simp only [List.cons_append] at hcs
          injection hcs with h1 h2
          subst h1
          rcases h2.symm with rfl
          by_cases hn : nullable a = true
          · simp only [deriv, hn, if_true]
            exact .altL (RMatch.seq (iha rfl) hb)
          · simp only [deriv, hn, if_false]
            exact RMatch.seq (iha rfl) hb
  | altL ha iha =>
      intro c s hcs
      simp only [deriv]
      exact .altL (iha hcs)
  | altR hb ihb =>
      intro c s hcs
      simp only [deriv]
      exact .altR (ihb hcs)
  | starNil =>
      intro c s hcs
      cases hcs
  | starCons ha ht iha iht =>
      intro c s hcs
      rename_i a u t
      cases u with
      | nil =>
          simp only [List.nil_append] at hcs
          exact iht hcs
      | cons x u' =>
          simp only [List.cons_append] at hcs
          injection hcs with h1 h2
          subst h1
          rcases h2.symm with rfl
          simp only [deriv]
          exact RMatch.seq (iha rfl) ht

theorem rmatch_iff (r : Regex) (l : List Char) : rmatch r l = true ↔ RMatch r l := by
  induction l generalizing r with
  | nil => simpa only [rmatch] using nullable_iff r
  | cons c s ih =>
      simp only [rmatch]
      rw [ih (deriv r c)]
      constructor
      · exact deriv_sound
      · intro h
        exact deriv_complete h rfl

/-! Characterizations of the combinators appearing in the three source
patterns. -/

theorem RMatch_star_cls_forward {r : Regex} {l : List Char} (h : RMatch r l) :
    ∀ {p : Char → Bool}, r = .star (.cls p) → ∀ c ∈ l, p c = true := by
  induction h with
  | eps => intro p hr; cases hr
  | cls _ => intro p hr; cases hr
  | seq _ _ _ _ => intro p hr; cases hr
  | altL _ _ => intro p hr; cases hr
  | altR _ _ => intro p hr; cases hr
  | starNil =>
      intro p hr c hc
      cases hc
  | starCons ha ht iha iht =>
      intro p hr c hc
      injection hr with ha'
      subst ha'
      rcases List.mem_append.mp hc with hc | hc
      · rcases RMatch_cls_iff.mp ha with ⟨c', rfl, hp⟩
        rcases List.mem_singleton.mp hc with rfl
        exact hp
      · exact iht rfl c hc

theorem RMatch_star_cls {p : Char → Bool} {l : List Char} :
    RMatch (.star (.cls p)) l ↔ ∀ c ∈ l, p c = true := by
  constructor
  · exact fun h => RMatch_star_cls_forward h rfl
  · intro h
    induction l with
    | nil => exact .starNil
    | cons c s ih =>
        exact RMatch.starCons (s := [c]) (.cls (h c (by simp)))
          (ih fun c' hc' => h c' (by simp [hc']))

theorem RMatch_plus_cls {p : Char → Bool} {l : List Char} :
    RMatch (Regex.plus (.cls p)) l ↔ l ≠ [] ∧ ∀ c ∈ l, p c = true := by
  rw [Regex.plus, RMatch_seq_iff]
  constructor
  · rintro ⟨u, v, rfl, ha, hb⟩
    rcases RMatch_cls_iff.mp ha with ⟨c, rfl, hp⟩
    have hv := RMatch_star_cls.mp hb
    refine ⟨by simp, ?_⟩
    intro c' hc'
    rcases List.mem_cons.mp hc' with rfl | h'
    · exact hp
    · exact hv _ h'
  · rintro ⟨hne, hall⟩
    cases l with
    | nil => exact absurd rfl hne
    | cons c s =>
        exact ⟨[c], s, rfl, .cls (hall c (by simp)),
          RMatch_star_cls.mpr fun c' hc' => hall c' (by simp [hc'])⟩

theorem RMatch_repN_cls {p : Char → Bool} :
    ∀ {n : Nat} {l : List Char},
      RMatch (Regex.repN n (.cls p)) l ↔ l.length = n ∧ ∀ c ∈ l, p c = true := by
  intro n
  induction n with
  | zero =>
      intro l
      rw [Regex.repN, RMatch_eps_iff]
      constructor
      · rintro rfl; simp
      · rintro ⟨h, _⟩
        exact List.length_eq_zero.mp h
  | succ n ih =>
      intro l
      rw [Regex.repN, RMatch_seq_iff]
      constructor
      · rintro ⟨u, v, rfl, ha, hb⟩
        rcases RMatch_cls_iff.mp ha with ⟨c, rfl, hp⟩
        rcases ih.mp hb with ⟨hlen, hall⟩
        refine ⟨by simp [hlen], ?_⟩
        intro c' hc'
        rcases List.mem_cons.mp hc' with rfl | h'
        · exact hp
        · exact hall _ h'
      · rintro ⟨hlen, hall⟩
        cases l with
        | nil => cases hlen
        | cons c s =>
            exact ⟨[c], s, rfl, .cls (hall c (by simp)),
              ih.mpr ⟨by simpa using hlen, fun c' hc' => hall c' (by simp [hc'])⟩⟩

theorem RMatch_seq_cls_iff {p : Char → Bool} {b : Regex} {l : List Char} :
    RMatch (.seq (.cls p) b) l ↔ ∃ c r, l = c :: r ∧ p c = true ∧ RMatch b r := by
  rw [RMatch_seq_iff]
  constructor
  · rintro ⟨u, v, rfl, ha, hb⟩
    rcases RMatch_cls_iff.mp ha with ⟨c, rfl, hp⟩
    exact ⟨c, v, rfl, hp, hb⟩
  · rintro ⟨c, r, rfl, hp, hb⟩
    exact ⟨[c], r, rfl, .cls hp, hb⟩

theorem RMatch_seq_opt_cls_iff {p : Char → Bool} {b : Regex} {l : List Char} :
    RMatch (.seq (.opt (.cls p)) b) l ↔
      RMatch b l ∨ ∃ c r, l = c :: r ∧ p c = true ∧ RMatch b r := by
  rw [RMatch_seq_iff]
  constructor
  · rintro ⟨u, v, rfl, ha, hb⟩
    rcases RMatch_opt_iff.mp ha with rfl | hcl
    · exact .inl (by simpa using hb)
    · rcases RMatch_cls_iff.mp hcl with ⟨c, rfl, hp⟩
      exact .inr ⟨c, v, rfl, hp, hb⟩
  · rintro (hb | ⟨c, r, rfl, hp, hb⟩)
    · exact ⟨[], l, by simp, RMatch_opt_iff.mpr (.inl rfl), hb⟩
    · exact ⟨[c], r, rfl, RMatch_opt_iff.mpr (.inr (.cls hp)), hb⟩

/-! Exact languages of the three validation tests. -/

theorem emailRegexTest_iff (s : String) : emailRegexTest s = true ↔ EmailShape s.data := by
  unfold emailRegexTest regexTest emailRegex EmailShape
  rw [rmatch_iff, RMatch_seq_iff]
  constructor
  · rintro ⟨a, v, hl, hpa, hrest⟩
    rcases RMatch_seq_cls_iff.mp hrest with ⟨c0, r, rfl, hc0, hrest⟩
    rcases RMatch_seq_iff.mp hrest with ⟨b, w, rfl, hpb, hrest⟩
    rcases RMatch_seq_cls_iff.mp hrest with ⟨c1, cpart, rfl, hc1, hpc⟩
    rcases RMatch_plus_cls.mp hpa with ⟨hane, haall⟩
    rcases RMatch_plus_cls.mp hpb with ⟨hbne, hball⟩
    rcases RMatch_plus_cls.mp hpc with ⟨hcne, hcall⟩
    have hc0' : c0 = '@' := of_decide_eq_true hc0
    have hc1' : c1 = '.' := of_decide_eq_true hc1
    subst hc0' hc1'
    exact ⟨a, b, cpart, hl, hane, hbne, hcne, haall, hball, hcall⟩
  · rintro ⟨a, b, c, hl, hane, hbne, hcne, haall, hball, hcall⟩
    refine ⟨a, '@' :: (b ++ '.' :: c), hl, RMatch_plus_cls.mpr ⟨hane, haall⟩, ?_⟩
    rw [RMatch_seq_cls_iff]
    refine ⟨'@', _, rfl, by decide, ?_⟩
    rw [RMatch_seq_iff]
    refine ⟨b, '.' :: c, rfl, RMatch_plus_cls.mpr ⟨hbne, hball⟩, ?_⟩
    rw [RMatch_seq_cls_iff]
    exact ⟨'.', c, rfl, by decide, RMatch_plus_cls.mpr ⟨hcne, hcall⟩⟩

theorem phoneBody_iff {l : List Char} (hws : ∀ c ∈ l, jsWhitespace c = false) :
    RMatch
      (.seq (.cls (· = '8'))
      (.seq (.cls (· = '8'))
      (.seq (.opt (.cls (· = '0')))
      (.seq (.opt (.cls jsWhitespace))
      (.seq (.cls (· = '1'))
      (.seq (.cls digit39)
      (.repN 8 (.cls Char.isDigit)))))))) l ↔
    ∃ (zeroPart : List Char) (d : Char) (ds : List Char),
      l = '8' :: '8' :: (zeroPart ++ '1' :: d :: ds) ∧
      (zeroPart = [] ∨ zeroPart = ['0']) ∧
      digit39 d = true ∧ ds.length = 8 ∧ ∀ c ∈ ds, c.isDigit = true := by
  constructor
  · intro h0
    rcases RMatch_seq_cls_iff.mp h0 with ⟨e1, r1, rfl, he1, h1⟩
    rcases RMatch_seq_cls_iff.mp h1 with ⟨e2, r2, rfl, he2, h2⟩
    have he1' : e1 = '8' := of_decide_eq_true he1
    have he2' : e2 = '8' := of_decide_eq_true he2
    subst he1' he2'
    rcases RMatch_seq_opt_cls_iff.mp h2 with h3 | ⟨c0, r3, rfl, hc0, h3⟩
    · rcases RMatch_seq_opt_cls_iff.mp h3 with h4 | ⟨cw, r4, rfl, hcw, h4⟩
      · rcases RMatch_seq_cls_iff.mp h4 with ⟨e3, r5, rfl, he3, h5⟩
        rcases RMatch_seq_cls_iff.mp h5 with ⟨d, ds, rfl, hd, h6⟩
        rcases RMatch_repN_cls.mp h6 with ⟨hlen, hall⟩
        have he3' : e3 = '1' := of_decide_eq_true he3
        subst he3'
        exact ⟨[], d, ds, rfl, .inl rfl, hd, hlen, hall⟩
      · have hfalse : jsWhitespace cw = false := hws cw (by simp)
        rw [hfalse] at hcw
        cases hcw
    · have hc0' : c0 = '0' := of_decide_eq_true hc0
      subst hc0'
      rcases RMatch_seq_opt_cls_iff.mp h3 with h4 | ⟨cw, r4, rfl, hcw, h4⟩
      · rcases RMatch_seq_cls_iff.mp h4 with ⟨e3, r5, rfl, he3, h5⟩
        rcases RMatch_seq_cls_iff.mp h5 with ⟨d, ds, rfl, hd, h6⟩
        rcases RMatch_repN_cls.mp h6 with ⟨hlen, hall⟩
        have he3' : e3 = '1' := of_decide_eq_true he3
        subst he3'
        exact ⟨['0'], d, ds, rfl, .inr rfl, hd, hlen, hall⟩
      · have hfalse : jsWhitespace cw = false := hws cw (by simp)
        rw [hfalse] at hcw
        cases hcw
  · rintro ⟨zeroPart, d, ds, rfl, hz, hd, hlen, hall⟩
    rw [RMatch_seq_cls_iff]
    refine ⟨'8', _, rfl, by decide, ?_⟩
    rw [RMatch_seq_cls_iff]
    refine ⟨'8', _, rfl, by decide, ?_⟩
    rw [RMatch_seq_opt_cls_iff]
    have tail :
        RMatch
          (.seq (.opt (.cls jsWhitespace))
          (.seq (.cls (· = '1'))
          (.seq (.cls digit39)
          (.repN 8 (.cls Char.isDigit))))) ('1' :: d :: ds) := by
      rw [RMatch_seq_opt_cls_iff]
      left
      rw [RMatch_seq_cls_iff]
      refine ⟨'1', _, rfl, by decide, ?_⟩
      rw [RMatch_seq_cls_iff]
      exact ⟨d, ds, rfl, hd, RMatch_repN_cls.mpr ⟨hlen, hall⟩⟩
    rcases hz with rfl | rfl
    · exact .inl tail
    · exact .inr ⟨'0', '1' :: d :: ds, rfl, by decide, tail⟩

theorem stripWhitespace_no_ws (s : String) :
    ∀ c ∈ (stripWhitespace s).data, jsWhitespace c = false := by
  intro c hc
  rw [stripWhitespace] at hc
  simp only [List.mem_filter, Bool.not_eq_eq_eq_not, Bool.not_true] at hc
  simpa using hc.2

theorem phoneCheck_iff (s : String) :
    phoneCheck s = true ↔ PhoneShape (stripWhitespace s).data := by
  have hws := stripWhitespace_no_ws s
  unfold phoneCheck regexTest phoneRegex PhoneShape
  rw [rmatch_iff, RMatch_seq_opt_cls_iff]
  constructor
  · rintro (h | ⟨cp, r, hl, hcp, h⟩)
    · rcases (phoneBody_iff hws).mp h with ⟨zeroPart, d, ds, hl, hz, hd, hlen, hall⟩
      exact ⟨[], zeroPart, d, ds, hl, .inl rfl, hz, hd, hlen, hall⟩
    · have hcp' : cp = '+' := of_decide_eq_true hcp
      subst hcp'
      have hws' : ∀ c ∈ r, jsWhitespace c = false := fun c hc => hws c (by rw [hl]; simp [hc])
      rcases (phoneBody_iff hws').mp h with ⟨zeroPart, d, ds, hr, hz, hd, hlen, hall⟩
      exact ⟨['+'], zeroPart, d, ds, by simp [hl, hr], .inr rfl, hz, hd, hlen, hall⟩
  · rintro ⟨plusPart, zeroPart, d, ds, hl, hp, hz, hd, hlen, hall⟩
    have body :
        RMatch
          (.seq (.cls (· = '8'))
          (.seq (.cls (· = '8'))
          (.seq (.opt (.cls (· = '0')))
          (.seq (.opt (.cls jsWhitespace))
          (.seq (.cls (· = '1'))
          (.seq (.cls digit39)
          (.repN 8 (.cls Char.isDigit)))))))) ('8' :: '8' :: (zeroPart ++ '1' :: d :: ds)) := by
      have : ∀ c ∈ ('8' :: '8' :: (zeroPart ++ '1' :: d :: ds) : List Char),
          jsWhitespace c = false := by
        intro c hc
        apply hws
        rw [hl]
        simp [hc]
      exact (phoneBody_iff this).mpr ⟨zeroPart, d, ds, rfl, hz, hd, hlen, hall⟩
    rcases hp with rfl | rfl
    · left
      simp only [List.nil_append] at hl
      rw [hl]
      exact body
    · exact .inr ⟨'+', '8' :: '8' :: (zeroPart ++ '1' :: d :: ds), by simpa using hl, by decide, body⟩

theorem nidRegexTest_iff (s : String) :
    nidRegexTest s = true ↔ s.data.length = 17 ∧ ∀ c ∈ s.data, c.isDigit = true := by
  unfold nidRegexTest regexTest nidRegex
  rw [rmatch_iff]
  exact RMatch_repN_cls

/-! Behaviour of the registration handler. -/

theorem truthy_some {o : Option String} : truthy o = true ↔ ∃ x, o = some x ∧ x ≠ "" := by
  cases o with
  | none => simp [truthy]
  | some s =>
      simp only [truthy, Bool.not_eq_eq_eq_not, Bool.not_false, beq_iff_eq]
      constructor
      · intro h
        exact ⟨s, rfl, by simpa using h⟩
      · rintro ⟨x, hx, hne⟩
        injection hx with hx
        subst hx
        simpa using hne

theorem truthy_false {o : Option String} : truthy o = false ↔ o = none ∨ o = some "" := by
  cases o with
  | none => simp [truthy]
  | some s => simp [truthy]

theorem registerDonor_missing (now : Nat) (p : RegistrationPayload) (s : DBState)
    (h : requiredFieldsPresent p = false) :
    registerDonor now p s = (.badRequest missingFieldsMsg, s) := by
  unfold registerDonor
  simp [h]

theorem registerDonor_bad_email (now : Nat) (p : RegistrationPayload) (s : DBState)
    (h1 : requiredFieldsPresent p = true)
    (h2 : emailRegexTest (p.email.getD "") = false) :
    registerDonor now p s = (.badRequest invalidEmailMsg, s) := by
  unfold registerDonor
  simp [h1, h2]

theorem registerDonor_bad_phone (now : Nat) (p : RegistrationPayload) (s : DBState)
    (h1 : requiredFieldsPresent p = true)
    (h2 : emailRegexTest (p.email.getD "") = true)
    (h3 : phoneCheck (p.phone.getD "") = false) :
    registerDonor now p s = (.badRequest invalidPhoneMsg, s) := by
  unfold registerDonor
  simp [h1, h2, h3]

theorem registerDonor_bad_nid (now : Nat) (p : RegistrationPayload) (s : DBState)
    (h1 : requiredFieldsPresent p = true)
    (h2 : emailRegexTest (p.email.getD "") = true)
    (h3 : phoneCheck (p.phone.getD "") = true)
    (h4 : truthy p.nidNumber = true)
    (h5 : nidRegexTest (p.nidNumber.getD "") = false) :
    registerDonor now p s = (.badRequest invalidNidMsg, s) := by
  unfold registerDonor
  simp [h1, h2, h3, h4, h5]

theorem registerDonor_validated {p : RegistrationPayload} (now : Nat) (s : DBState)
    (h : validationPasses p = true) :
    registerDonor now p s =
      match insertDonor now p false none s with
      | none => (.serverError registerStoreErrorMsg, s)
      | some (donorId, s1) =>
          (.success registerSuccessMsg donorId
            (if truthy p.nidNumber then nidStatusPending else nidStatusNone),
           updateInventory now (p.bloodType.getD "") s1) := by
  unfold validationPasses at h
  simp only [Bool.and_eq_true] at h
  obtain ⟨⟨⟨h1, h2⟩, h3⟩, h4⟩ := h
  have h4' : (truthy p.nidNumber && !nidRegexTest (p.nidNumber.getD "")) = false := by
    rw [Bool.not_eq_true'] at h4
    exact h4
  unfold registerDonor
  simp [h1, h2, h3, h4']

theorem registerDonor_not_validated {p : RegistrationPayload} (now : Nat) (s : DBState)
    (h : validationPasses p = false) :
    ∃ m, registerDonor now p s = (.badRequest m, s) := by
  by_cases h1 : requiredFieldsPresent p = true
  · by_cases h2 : emailRegexTest (p.email.getD "") = true
    · by_cases h3 : phoneCheck (p.phone.getD "") = true
      · have h4 : (truthy p.nidNumber && !nidRegexTest (p.nidNumber.getD "")) = true := by
          unfold validationPasses at h
          simp only [h1, h2, h3, Bool.true_and] at h
          simpa using h
        rw [Bool.and_eq_true] at h4
        exact ⟨invalidNidMsg, registerDonor_bad_nid now p s h1 h2 h3 h4.1 (by simpa using h4.2)⟩
      · exact ⟨invalidPhoneMsg,
          registerDonor_bad_phone now p s h1 h2 (by simpa using h3)⟩
    · exact ⟨invalidEmailMsg,
        registerDonor_bad_email now p s h1 (by simpa using h2)⟩
  · exact ⟨missingFieldsMsg, registerDonor_missing now p s (by simpa using h1)⟩

theorem insertDonor_spec {now : Nat} {p : RegistrationPayload} {nv : Bool}
    {nd : Option String} {s : DBState} {i : Nat} {s1 : DBState}
    (h : insertDonor now p nv nd s = some (i, s1)) :
    i = s.nextId ∧ ∃ row : DonorRow,
      row.nidVerified = nv ∧ row.nidData = nd ∧ row.registrationDate = now ∧
      row.bloodType = p.bloodType.getD "" ∧ row.id = s.nextId ∧
      s1 = { s with donors := s.donors ++ [row], nextId := s.nextId + 1 } := by
  unfold insertDonor at h
  split at h
  · rename_i fn ln em ph db bt g ad ci z hfn hln hem hph hdb hbt hg had hci hz
    rw [Option.some.injEq, Prod.mk.injEq] at h
    obtain ⟨hi, hs⟩ := h
    refine ⟨hi.symm, _, rfl, rfl, rfl, ?_, rfl, hs.symm⟩
    rw [hbt]
    rfl
  · cases h

theorem insertDonor_eq_some (now : Nat) {p : RegistrationPayload} (nv : Bool)
    (nd : Option String) (s : DBState)
    (h7 : requiredFieldsPresent p = true)
    (hdob : p.dob.isSome = true) (haddr : p.address.isSome = true)
    (hzip : p.zipCode.isSome = true) :
    ∃ s1, insertDonor now p nv nd s = some (s.nextId, s1) := by
  unfold requiredFieldsPresent at h7
  simp only [Bool.and_eq_true] at h7
  obtain ⟨⟨⟨⟨⟨⟨hfn, hln⟩, hem⟩, hph⟩, hbt⟩, hg⟩, hci⟩ := h7
  rcases truthy_some.mp hfn with ⟨fn, hfn', _⟩
  rcases truthy_some.mp hln with ⟨ln, hln', _⟩
  rcases truthy_some.mp hem with ⟨em, hem', _⟩
  rcases truthy_some.mp hph with ⟨ph, hph', _⟩
  rcases truthy_some.mp hbt with ⟨bt, hbt', _⟩
  rcases truthy_some.mp hg with ⟨g, hg', _⟩
  rcases truthy_some.mp hci with ⟨ci, hci', _⟩
  rcases Option.isSome_iff_exists.mp hdob with ⟨db, hdb⟩
  rcases Option.isSome_iff_exists.mp haddr with ⟨ad, had⟩
  rcases Option.isSome_iff_exists.mp hzip with ⟨z, hz⟩
  unfold insertDonor
  rw [hfn', hln', hem', hph', hdb, hbt', hg', had, hci', hz]
  exact ⟨_, rfl⟩

theorem insertDonor_none {now : Nat} {p : RegistrationPayload} {nv : Bool}
    {nd : Option String} {s : DBState}
    (h : p.dob = none ∨ p.address = none ∨ p.zipCode = none) :
    insertDonor now p nv nd s = none := by
  unfold insertDonor
  split
  · rename_i fn ln em ph db bt g ad ci z hfn hln hem hph hdb hbt hg had hci hz
    rcases h with h | h | h <;> simp_all
  · rfl

theorem registerDonor_state (now : Nat) (p : RegistrationPayload) (s : DBState) :
    (registerDonor now p s).2 = s ∨
    ∃ row : DonorRow, row.nidVerified = false ∧ row.nidData = none ∧
      row.registrationDate = now ∧
      (registerDonor now p s).2 =
        updateInventory now (p.bloodType.getD "")
          { s with donors := s.donors ++ [row], nextId := s.nextId + 1 } := by
  by_cases hv : validationPasses p = true
  · rcases hins : insertDonor now p false none s with _ | ⟨i, s1⟩
    · rw [registerDonor_validated now s hv, hins]
      left
      rfl
    · rw [registerDonor_validated now s hv, hins]
      rcases insertDonor_spec hins with ⟨hi, row, hnv, hnd, hdate, hbt, hid, hs1⟩
      right
      exact ⟨row, hnv, hnd, hdate, by rw [hs1]⟩
  · rcases registerDonor_not_validated now s (by simpa using hv) with ⟨m, hm⟩
    left
    rw [hm]

/-! Effects of the initializer and the secondary inventory write on the
store, and preservation of the structural invariant. -/

theorem updateInventory_admins (now : Nat) (bt : String) (s : DBState) :
    (updateInventory now bt s).admins = s.admins := rfl

theorem updateInventory_donors (now : Nat) (bt : String) (s : DBState) :
    (updateInventory now bt s).donors = s.donors := rfl

theorem updateInventory_types (now : Nat) (bt : String) (s : DBState) :
    (updateInventory now bt s).inventory.map (fun r => r.bloodType) =
      s.inventory.map (fun r => r.bloodType) := by
  unfold updateInventory
  simp only [List.map_map]
  apply List.map_congr_left
  intro r hr
  by_cases h : (r.bloodType == bt) = true <;> simp [Function.comp, h]

theorem updateInventory_sub {now : Nat} {bt : String} {s : DBState}
    (h : ∀ r ∈ s.inventory, r.bloodType ∈ bloodTypes) :
    ∀ r ∈ (updateInventory now bt s).inventory, r.bloodType ∈ bloodTypes := by
  intro r hr
  unfold updateInventory at hr
  rcases List.mem_map.mp hr with ⟨r0, hr0, rfl⟩
  split <;> exact h r0 hr0

theorem seedAdmin_inventory (s : DBState) : (seedAdmin s).inventory = s.inventory := by
  unfold seedAdmin
  split <;> rfl

theorem seedAdmin_donors (s : DBState) : (seedAdmin s).donors = s.donors := by
  unfold seedAdmin
  split <;> rfl

theorem seedAdmin_has_admin (s : DBState) :
    (seedAdmin s).admins.any (fun a => a.username == defaultAdmin.username) = true := by
  unfold seedAdmin
  split
  · rename_i h
    exact h
  · simp

theorem seedType_donors (now : Nat) (s : DBState) (t : String) :
    (seedInventoryType now s t).donors = s.donors := by
  unfold seedInventoryType
  split <;> rfl

theorem seedType_admins (now : Nat) (s : DBState) (t : String) :
    (seedInventoryType now s t).admins = s.admins := by
  unfold seedInventoryType
  split <;> rfl

theorem seedType_mem (now : Nat) (t' : String) (s : DBState) (t : String) :
    t ∈ (seedInventoryType now s t').inventory.map (fun r => r.bloodType) ↔
      t ∈ s.inventory.map (fun r => r.bloodType) ∨ t = t' := by
  unfold seedInventoryType
  split
  · rename_i h
    have ht' : t' ∈ s.inventory.map (fun r => r.bloodType) := by
      rw [List.any_eq_true] at h
      rcases h with ⟨r, hr, hrt⟩
      exact List.mem_map.mpr ⟨r, hr, by simpa using hrt⟩
    constructor
    · exact .inl
    · rintro (h1 | rfl)
      · exact h1
      · exact ht'
  · simp

theorem seedType_nodup (now : Nat) (t' : String) (s : DBState)
    (h : (s.inventory.map (fun r => r.bloodType)).Nodup) :
    ((seedInventoryType now s t').inventory.map (fun r => r.bloodType)).Nodup := by
  unfold seedInventoryType
  split
  · exact h
  · rename_i hany
    have ht' : t' ∉ s.inventory.map (fun r => r.bloodType) := by
      intro hmem
      rcases List.mem_map.mp hmem with ⟨r, hr, hrt⟩
      apply hany
      rw [List.any_eq_true]
      exact ⟨r, hr, by simp [hrt]⟩
    simp [List.nodup_append, h, ht']

theorem seedType_sub (now : Nat) (t' : String) (s : DBState) (hts : t' ∈ bloodTypes)
    (h : ∀ r ∈ s.inventory, r.bloodType ∈ bloodTypes) :
    ∀ r ∈ (seedInventoryType now s t').inventory, r.bloodType ∈ bloodTypes := by
  unfold seedInventoryType
  split
  · exact h
  · intro r hr
    rcases List.mem_append.mp hr with hr | hr
    · exact h r hr
    · rcases List.mem_singleton.mp hr with rfl
      simpa using hts

theorem foldSeed_admins (now : Nat) :
    ∀ (ts : List String) (s : DBState),
      (ts.foldl (seedInventoryType now) s).admins = s.admins
  | [], s => rfl
  | t' :: ts, s => by
      rw [List.foldl_cons, foldSeed_admins now ts, seedType_admins]

theorem foldSeed_donors (now : Nat) :
    ∀ (ts : List String) (s : DBState),
      (ts.foldl (seedInventoryType now) s).donors = s.donors
  | [], s => rfl
  | t' :: ts, s => by
      rw [List.foldl_cons, foldSeed_donors now ts, seedType_donors]

theorem foldSeed_mem (now : Nat) :
    ∀ (ts : List String) (s : DBState) (t : String),
      t ∈ (ts.foldl (seedInventoryType now) s).inventory.map (fun r => r.bloodType) ↔
        t ∈ s.inventory.map (fun r => r.bloodType) ∨ t ∈ ts
  | [], s, t => by simp
  | t' :: ts, s, t => by
      rw [List.foldl_cons, foldSeed_mem now ts, seedType_mem]
      simp only [List.mem_cons]
      tauto

theorem foldSeed_nodup (now : Nat) :
    ∀ (ts : List String) (s : DBState),
      (s.inventory.map (fun r => r.bloodType)).Nodup →
      ((ts.foldl (seedInventoryType now) s).inventory.map (fun r => r.bloodType)).Nodup
  | [], _, h => h
  | t' :: ts, s, h => by
      rw [List.foldl_cons]
      exact foldSeed_nodup now ts _ (seedType_nodup now t' s h)

theorem foldSeed_sub (now : Nat) :
    ∀ (ts : List String) (s : DBState), (∀ t ∈ ts, t ∈ bloodTypes) →
      (∀ r ∈ s.inventory, r.bloodType ∈ bloodTypes) →
      ∀ r ∈ (ts.foldl (seedInventoryType now) s).inventory, r.bloodType ∈ bloodTypes
  | [], _, _, h => h
  | t' :: ts, s, hts, h => by
      rw [List.foldl_cons]
      exact foldSeed_sub now ts _ (fun t ht => hts t (by simp [ht]))
        (seedType_sub now t' s (hts t' (by simp)) h)

theorem initDb_donors (now : Nat) (s : DBState) : (initDb now s).donors = s.donors := by
  unfold initDb
  rw [foldSeed_donors, seedAdmin_donors]

theorem initDb_admins_eq (now : Nat) (s : DBState)
    (hall : ∀ a ∈ s.admins, a = defaultAdmin) (hlen : s.admins.length ≤ 1) :
    (initDb now s).admins = [defaultAdmin] := by
  unfold initDb
  rw [foldSeed_admins]
  unfold seedAdmin
  rcases hadm : s.admins with _ | ⟨a, rest⟩
  · simp [hadm]
  · have ha : a = defaultAdmin := hall a (by rw [hadm]; simp)
    have hrest : rest = [] := by
      cases rest with
      | nil => rfl
      | cons b r =>
          rw [hadm] at hlen
          simp at hlen
    subst ha hrest
    simp [hadm]

theorem initDb_inventory_perm (now : Nat) (s : DBState)
    (hnodup : (s.inventory.map (fun r => r.bloodType)).Nodup)
    (hsub : ∀ r ∈ s.inventory, r.bloodType ∈ bloodTypes) :
    ((initDb now s).inventory.map (fun r => r.bloodType)).Perm bloodTypes := by
  have hnodup' : ((initDb now s).inventory.map (fun r => r.bloodType)).Nodup := by
    unfold initDb
    apply foldSeed_nodup
    rw [seedAdmin_inventory]
    exact hnodup
  have hbtnodup : bloodTypes.Nodup := by decide
  rw [List.perm_ext_iff_of_nodup hnodup' hbtnodup]
  intro t
  unfold initDb
  rw [foldSeed_mem, seedAdmin_inventory]
  constructor
  · rintro (h | h)
    · rcases List.mem_map.mp h with ⟨r, hr, rfl⟩
      exact hsub r hr
    · exact h
  · exact .inr

theorem initDb_wf (now : Nat) (s : DBState) (h : StateWf s) : StateWf (initDb now s) := by
  obtain ⟨hadm, hlen, hnodup, hsub, hdon⟩ := h
  refine ⟨?_, ?_, ?_, ?_, ?_⟩
  · rw [initDb_admins_eq now s hadm hlen]
    intro a ha
    simpa using ha
  · rw [initDb_admins_eq now s hadm hlen]
    simp
  · unfold initDb
    apply foldSeed_nodup
    rw [seedAdmin_inventory]
    exact hnodup
  · unfold initDb
    apply foldSeed_sub now bloodTypes _ (fun t ht => ht)
    intro r hr
    rw [seedAdmin_inventory] at hr
    exact hsub r hr
  · rw [initDb_donors]
    exact hdon

theorem reachable_wf {s : DBState} (h : Reachable s) : StateWf s := by
  induction h with
  | empty =>
      refine ⟨?_, ?_, ?_, ?_, ?_⟩ <;> simp [emptyState]
  | init now _ ih => exact initDb_wf _ _ ih
  | @register s' now p _ ih =>
      rcases registerDonor_state now p s' with h0 | ⟨row, hnv, hnd, hdate, h0⟩
      · rw [h0]
        exact ih
      · rw [h0]
        obtain ⟨hadm, hlen, hnodup, hsub, hdon⟩ := ih
        refine ⟨?_, ?_, ?_, ?_, ?_⟩
        · rw [updateInventory_admins]
          exact hadm
        · rw [updateInventory_admins]
          exact hlen
        · rw [updateInventory_types]
          exact hnodup
        · apply updateInventory_sub
          exact hsub
        · intro d hd
          rw [updateInventory_donors] at hd
          rcases List.mem_append.mp hd with hd | hd
          · exact hdon d hd
          · rcases List.mem_singleton.mp hd with rfl
            exact ⟨hnv, hnd⟩

theorem foldSeed_id (now : Nat) :
    ∀ (ts : List String) (s : DBState),
      (∀ t ∈ ts, t ∈ s.inventory.map (fun r => r.bloodType)) →
      ts.foldl (seedInventoryType now) s = s
  | [], _, _ => rfl
  | t' :: ts, s, h => by
      rw [List.foldl_cons]
      have hs : seedInventoryType now s t' = s := by
        unfold seedInventoryType
        have hany : s.inventory.any (fun r => r.bloodType == t') = true := by
          rcases List.mem_map.mp (h t' (by simp)) with ⟨r, hr, hrt⟩
          rw [List.any_eq_true]
          exact ⟨r, hr, by simp [hrt]⟩
        simp [hany]
      rw [hs]
      exact foldSeed_id now ts s fun t ht => h t (by simp [ht])

theorem initDb_idem (n1 n2 : Nat) (s : DBState) :
    initDb n2 (initDb n1 s) = initDb n1 s := by
  have hadm : (initDb n1 s).admins.any (fun a => a.username == defaultAdmin.username) = true := by
    unfold initDb
    rw [foldSeed_admins]
    exact seedAdmin_has_admin s
  have hmem : ∀ t ∈ bloodTypes,
      t ∈ (initDb n1 s).inventory.map (fun r => r.bloodType) := by
    intro t ht
    unfold initDb
    rw [foldSeed_mem, seedAdmin_inventory]
    exact .inr ht
  show bloodTypes.foldl (seedInventoryType n2) (seedAdmin (initDb n1 s)) = initDb n1 s
  have hsa : seedAdmin (initDb n1 s) = initDb n1 s := by
    unfold seedAdmin
    simp [hadm]
  rw [hsa]
  exact foldSeed_id n2 bloodTypes _ hmem

theorem updateInventory_inventory (now : Nat) (bt : String) (s : DBState) :
    (updateInventory now bt s).inventory =
      s.inventory.map (fun r =>
        if r.bloodType == bt then { r with units := r.units + 1, lastUpdated := now }
        else r) := rfl

theorem registerDonor_success_state {now : Nat} {p : RegistrationPayload}
    {s s1 : DBState}
    (hv : validationPasses p = true)
    (hins : insertDonor now p false none s = some (s.nextId, s1)) :
    registerDonor now p s =
      (.success registerSuccessMsg s.nextId
        (if truthy p.nidNumber then nidStatusPending else nidStatusNone),
       updateInventory now (p.bloodType.getD "") s1) := by
  rw [registerDonor_validated now s hv, hins]

theorem validationPasses_required {p : RegistrationPayload}
    (hv : validationPasses p = true) : requiredFieldsPresent p = true := by
  unfold validationPasses at hv
  simp only [Bool.and_eq_true] at hv
  exact hv.1.1.1

/-! The ten claims. -/

/-- C1: for every registration that passes validation and whose donor insert
succeeds, the handler issues the secondary write: every inventory row whose
blood type equals the registered donor's blood type gets exactly one more
unit and its last-updated timestamp set to the current time, every other
inventory row is kept unchanged, and the response is the success response. -/
theorem registration_increments_matching_inventory
    (now : Nat) (p : RegistrationPayload) (s : DBState)
    (hv : validationPasses p = true)
    (hdob : p.dob.isSome = true) (haddr : p.address.isSome = true)
    (hzip : p.zipCode.isSome = true)
    (r : InventoryRow) (hr : r ∈ s.inventory) :
    (∃ i st, (registerDonor now p s).1 = .success registerSuccessMsg i st) ∧
    (r.bloodType = p.bloodType.getD "" →
      { r with units := r.units + 1, lastUpdated := now } ∈
        (registerDonor now p s).2.inventory) ∧
    (r.bloodType ≠ p.bloodType.getD "" → r ∈ (registerDonor now p s).2.inventory) := by
  have h7 := validationPasses_required hv
  rcases insertDonor_eq_some now false none s h7 hdob haddr hzip with ⟨s1, hins⟩
  rcases insertDonor_spec hins with ⟨-, row, -, -, -, -, -, hs1⟩
  have hinv : s1.inventory = s.inventory := by rw [hs1]
  rw [registerDonor_success_state hv hins]
  refine ⟨⟨s.nextId, _, rfl⟩, ?_, ?_⟩
  · intro heq
    show _ ∈ (updateInventory now (p.bloodType.getD "") s1).inventory
    rw [updateInventory_inventory, hinv]
    refine List.mem_map.mpr ⟨r, hr, ?_⟩
    simp [heq]
  · intro hne
    show _ ∈ (updateInventory now (p.bloodType.getD "") s1).inventory
    rw [updateInventory_inventory, hinv]
    refine List.mem_map.mpr ⟨r, hr, ?_⟩
    simp [hne]

/-- C1 witness: the worked example payload on the freshly seeded store. -/
theorem registration_increments_matching_inventory_witness :
    (∃ i st, (registerDonor 5 examplePayload seededState).1 =
      .success registerSuccessMsg i st) ∧
    (("O+" : String) = examplePayload.bloodType.getD "" →
      ({ bloodType := "O+", units := 1, lastUpdated := 5 } : InventoryRow) ∈
        (registerDonor 5 examplePayload seededState).2.inventory) ∧
    (("O+" : String) ≠ examplePayload.bloodType.getD "" →
      ({ bloodType := "O+", units := 0, lastUpdated := 0 } : InventoryRow) ∈
        (registerDonor 5 examplePayload seededState).2.inventory) :=
  registration_increments_matching_inventory 5 examplePayload seededState
    (by decide) (by decide) (by decide) (by decide)
    { bloodType := "O+", units := 0, lastUpdated := 0 } (by decide)

/-- C2: a registration payload in which any of the seven required fields is
absent or empty is answered with the missing-fields message and leaves the
store exactly as it was. -/
theorem missing_required_rejected (now : Nat) (p : RegistrationPayload) (s : DBState)
    (h : (p.firstName = none ∨ p.firstName = some "") ∨
         (p.lastName = none ∨ p.lastName = some "") ∨
         (p.email = none ∨ p.email = some "") ∨
         (p.phone = none ∨ p.phone = some "") ∨
         (p.bloodType = none ∨ p.bloodType = some "") ∨
         (p.gender = none ∨ p.gender = some "") ∨
         (p.city = none ∨ p.city = some "")) :
    registerDonor now p s = (.badRequest missingFieldsMsg, s) := by
  apply registerDonor_missing
  unfold requiredFieldsPresent
  rcases h with h | h | h | h | h | h | h <;> simp [truthy_false.mpr h]

/-- C2 witness: the all-absent payload on the fresh store. -/
theorem missing_required_rejected_witness :
    registerDonor 0 emptyPayload emptyState = (.badRequest missingFieldsMsg, emptyState) :=
  missing_required_rejected 0 emptyPayload emptyState (.inl (.inl rfl))

/-- C3 counterexample: the string 8801711112222 has no leading plus sign, so
it is not of the claimed shape, yet the phone check accepts it (whitespace
removal leaves it unchanged). -/
theorem phone_claim_counterexample :
    phoneCheck "8801711112222" = true ∧
    stripWhitespace "8801711112222" = "8801711112222" ∧
    rmatch claimedPhoneShape "8801711112222".data = false := by
  refine ⟨by decide, by decide, by decide⟩

/-- C3 (amended): applied to the phone string with all whitespace removed,
the phone check passes exactly the strings made of an optional plus sign,
then 88, an optional 0, then 1, a digit 3 through 9, and 8 more digits; and
when the required-field and email checks pass, a payload whose phone fails
the check is rejected with the phone-format message and an unchanged store. -/
theorem phone_check_characterization :
    (∀ s : String, phoneCheck s = true ↔ PhoneShape (stripWhitespace s).data) ∧
    (∀ (now : Nat) (p : RegistrationPayload) (st : DBState),
      requiredFieldsPresent p = true →
      emailRegexTest (p.email.getD "") = true →
      phoneCheck (p.phone.getD "") = false →
      registerDonor now p st = (.badRequest invalidPhoneMsg, st)) :=
  ⟨phoneCheck_iff, fun now p st h1 h2 h3 => registerDonor_bad_phone now p st h1 h2 h3⟩

/-- C3 witness: a phone number with country code, embedded whitespace and a
valid subscriber number passes; the worked example with the phone 12345 is
rejected with the phone-format message. -/
theorem phone_check_characterization_witness :
    phoneCheck "+880 1712345678" = true ∧
    registerDonor 0 badPhonePayload seededState =
      (.badRequest invalidPhoneMsg, seededState) := by
  constructor
  · exact (phone_check_characterization.1 "+880 1712345678").mpr
      ⟨['+'], ['0'], '7', ['1', '2', '3', '4', '5', '6', '7', '8'],
        by decide, .inr rfl, .inr rfl, by decide, by decide, by decide⟩
  · exact phone_check_characterization.2 0 badPhonePayload seededState
      (by decide) (by decide) (by decide)

/-- C4 counterexample: a payload carrying the malformed national ID 123 but
missing every required field is rejected with the missing-fields message,
not the NID-format message. -/
theorem nid_claim_counterexample :
    truthy missingWithNidPayload.nidNumber = true ∧
    nidRegexTest (missingWithNidPayload.nidNumber.getD "") = false ∧
    registerDonor 0 missingWithNidPayload emptyState =
      (.badRequest missingFieldsMsg, emptyState) ∧
    missingFieldsMsg ≠ invalidNidMsg := by
  refine ⟨by decide, by decide, by decide, by decide⟩

/-- C4 (amended): a supplied non-empty national ID that is not exactly 17
digits always makes the handler answer with some HTTP 400 rejection; the
rejection carries the NID-format message and leaves the store unchanged
whenever the required-field, email and phone checks pass; and the NID check
itself accepts exactly the strings of 17 digits. -/
theorem nid_check_amended :
    (∀ (now : Nat) (p : RegistrationPayload) (s : DBState),
      truthy p.nidNumber = true → nidRegexTest (p.nidNumber.getD "") = false →
      ∃ m, (registerDonor now p s).1 = .badRequest m) ∧
    (∀ (now : Nat) (p : RegistrationPayload) (s : DBState),
      requiredFieldsPresent p = true →
      emailRegexTest (p.email.getD "") = true →
      phoneCheck (p.phone.getD "") = true →
      truthy p.nidNumber = true →
      nidRegexTest (p.nidNumber.getD "") = false →
      registerDonor now p s = (.badRequest invalidNidMsg, s)) ∧
    (∀ s : String,
      nidRegexTest s = true ↔ s.data.length = 17 ∧ ∀ c ∈ s.data, c.isDigit = true) := by
  refine ⟨?_, ?_, nidRegexTest_iff⟩
  · intro now p s h4 h5
    have hv : validationPasses p = false := by
      unfold validationPasses
      simp [h4, h5]
    rcases registerDonor_not_validated now s hv with ⟨m, hm⟩
    exact ⟨m, by rw [hm]⟩
  · exact fun now p s h1 h2 h3 h4 h5 => registerDonor_bad_nid now p s h1 h2 h3 h4 h5

/-- C4 witness: the worked example with national ID 123 is rejected with the
NID-format message, and a 17-digit national ID passes the check. -/
theorem nid_check_amended_witness :
    registerDonor 0 badNidPayload seededState = (.badRequest invalidNidMsg, seededState) ∧
    nidRegexTest "12345678901234567" = true := by
  constructor
  · exact nid_check_amended.2.1 0 badNidPayload seededState
      (by decide) (by decide) (by decide) (by decide) (by decide)
  · exact (nid_check_amended.2.2 "12345678901234567").mpr ⟨by decide, by decide⟩

/-- C5: in every reachable store state, every stored donor row has the
verification flag false and the verification payload empty, whether or not a
national ID was supplied at registration. -/
theorem donor_nid_fields_always_default (s : DBState) (h : Reachable s) :
    ∀ d ∈ s.donors, d.nidVerified = false ∧ d.nidData = none :=
  (reachable_wf h).2.2.2.2

/-- C5 witness: the donor row stored by a registration that supplied a valid
17-digit national ID still has the flag false and the payload empty. -/
theorem donor_nid_fields_always_default_witness :
    insertedRow.nidVerified = false ∧ insertedRow.nidData = none :=
  donor_nid_fields_always_default reachedState
    (Reachable.register 5 nidPayload (Reachable.init 0 Reachable.empty))
    insertedRow (by decide)

/-- C6 counterexample: the string formed as local at domain dot tld with
non-empty parts whose local part contains a space matches the claimed naive
shape but fails the email check. -/
theorem email_claim_counterexample :
    "a b@c.d" = "a b" ++ "@" ++ "c" ++ "." ++ "d" ∧
    "a b" ≠ "" ∧ "c" ≠ "" ∧ "d" ≠ "" ∧
    emailRegexTest "a b@c.d" = false := by
  refine ⟨by decide, by decide, by decide, by decide, by decide⟩

/-- C6 (amended): the email check passes exactly the strings splitting as
local at domain dot tld where the three parts are non-empty and consist of
characters that are neither whitespace nor at signs; and when the
required-field check passes, a payload whose email fails the check is
rejected with the email message and an unchanged store. -/
theorem email_check_characterization :
    (∀ s : String, emailRegexTest s = true ↔ EmailShape s.data) ∧
    (∀ (now : Nat) (p : RegistrationPayload) (st : DBState),
      requiredFieldsPresent p = true →
      emailRegexTest (p.email.getD "") = false →
      registerDonor now p st = (.badRequest invalidEmailMsg, st)) :=
  ⟨emailRegexTest_iff, fun now p st h1 h2 => registerDonor_bad_email now p st h1 h2⟩

/-- C6 witness: the worked example address passes the check, and the worked
example with an address lacking the at sign is rejected with the email
message. -/
theorem email_check_characterization_witness :
    emailRegexTest "k@example.com" = true ∧
    registerDonor 0 badEmailPayload seededState =
      (.badRequest invalidEmailMsg, seededState) := by
  constructor
  · exact (email_check_characterization.1 "k@example.com").mpr
      ⟨['k'], ['e', 'x', 'a', 'm', 'p', 'l', 'e'], ['c', 'o', 'm'],
        by decide, by decide, by decide, by decide, by decide, by decide, by decide⟩
  · exact email_check_characterization.2 0 badEmailPayload seededState
      (by decide) (by decide)

/-- C7: the donor listing is a permutation of the donors table ordered by
registration timestamp, most recent first. -/
theorem get_donors_sorted_perm (s : DBState) :
    (getDonors s).Perm s.donors ∧
    (getDonors s).Pairwise (fun a b => b.registrationDate ≤ a.registrationDate) := by
  constructor
  · exact List.mergeSort_perm s.donors _
  · unfold getDonors
    refine List.Pairwise.imp ?_ (List.sorted_mergeSort ?_ ?_ s.donors)
    · intro a b hab
      exact of_decide_eq_true hab
    · intro a b c hab hbc
      exact decide_eq_true (Nat.le_trans (of_decide_eq_true hbc) (of_decide_eq_true hab))
    · intro a b
      simpa using Nat.le_total b.registrationDate a.registrationDate

/-- C8: running the startup initializer twice from any reachable state is
the same as running it once, and leaves exactly the one seeded default admin
row and exactly 8 inventory rows, one per canonical blood type. -/
theorem initializer_idempotent_counts (n1 n2 : Nat) (s : DBState) (h : Reachable s) :
    initDb n2 (initDb n1 s) = initDb n1 s ∧
    (initDb n2 (initDb n1 s)).admins = [defaultAdmin] ∧
    (initDb n2 (initDb n1 s)).admins.length = 1 ∧
    ((initDb n2 (initDb n1 s)).inventory.map (fun r => r.bloodType)).Perm bloodTypes ∧
    (initDb n2 (initDb n1 s)).inventory.length = 8 := by
  obtain ⟨hadm, hlen, hnodup, hsub, -⟩ := reachable_wf h
  have hidem := initDb_idem n1 n2 s
  rw [hidem]
  have hadm1 := initDb_admins_eq n1 s hadm hlen
  have hperm := initDb_inventory_perm n1 s hnodup hsub
  refine ⟨rfl, hadm1, by rw [hadm1]; rfl, hperm, ?_⟩
  have hl := hperm.length_eq
  simpa [bloodTypes] using hl

/-- C8 witness: two runs of the initializer on the fresh store. -/
theorem initializer_idempotent_counts_witness :
    initDb 1 (initDb 0 emptyState) = initDb 0 emptyState ∧
    (initDb 1 (initDb 0 emptyState)).admins = [defaultAdmin] ∧
    (initDb 1 (initDb 0 emptyState)).admins.length = 1 ∧
    ((initDb 1 (initDb 0 emptyState)).inventory.map (fun r => r.bloodType)).Perm bloodTypes ∧
    (initDb 1 (initDb 0 emptyState)).inventory.length = 8 :=
  initializer_idempotent_counts 0 1 emptyState Reachable.empty

/-- C9: a validated registration whose blood type is outside the canonical
eight (only non-emptiness of the blood type is ever validated) succeeds,
appends the donor row, and leaves every inventory row of a reachable state
unchanged, because the secondary write matches no row. -/
theorem unknown_blood_type_frame (now : Nat) (p : RegistrationPayload) (s : DBState)
    (hre : Reachable s)
    (hv : validationPasses p = true)
    (hdob : p.dob.isSome = true) (haddr : p.address.isSome = true)
    (hzip : p.zipCode.isSome = true)
    (hbt : p.bloodType.getD "" ∉ bloodTypes) :
    (∃ i, (registerDonor now p s).1 = .success registerSuccessMsg i
      (if truthy p.nidNumber then nidStatusPending else nidStatusNone)) ∧
    (registerDonor now p s).2.inventory = s.inventory ∧
    ∃ row : DonorRow, row.bloodType = p.bloodType.getD "" ∧
      (registerDonor now p s).2.donors = s.donors ++ [row] := by
  have h7 := validationPasses_required hv
  rcases insertDonor_eq_some now false none s h7 hdob haddr hzip with ⟨s1, hins⟩
  rcases insertDonor_spec hins with ⟨-, row, -, -, -, hrbt, -, hs1⟩
  have hinv : s1.inventory = s.inventory := by rw [hs1]
  have hsub := (reachable_wf hre).2.2.2.1
  rw [registerDonor_success_state hv hins]
  have hid : (updateInventory now (p.bloodType.getD "") s1).inventory = s1.inventory := by
    rw [updateInventory_inventory]
    have hall : ∀ r ∈ s1.inventory,
        (if r.bloodType == p.bloodType.getD "" then
          { r with units := r.units + 1, lastUpdated := now } else r) = r := by
      intro r hrm
      have hmem : r.bloodType ∈ bloodTypes := hsub r (hinv ▸ hrm)
      have hne : (r.bloodType == p.bloodType.getD "") = false := by
        rw [beq_eq_false_iff_ne]
        intro he
        exact hbt (he ▸ hmem)
      simp [hne]
    calc s1.inventory.map _ = s1.inventory.map id := List.map_congr_left hall
      _ = s1.inventory := List.map_id s1.inventory
  refine ⟨⟨s.nextId, rfl⟩, ?_, ⟨row, hrbt, ?_⟩⟩
  · show (updateInventory now (p.bloodType.getD "") s1).inventory = s.inventory
    rw [hid, hinv]
  · show (updateInventory now (p.bloodType.getD "") s1).donors = s.donors ++ [row]
    rw [updateInventory_donors, hs1]

/-- C9 witness: the worked example with blood type X+ on the freshly seeded
store. -/
theorem unknown_blood_type_frame_witness :
    (∃ i, (registerDonor 7 unknownTypePayload seededState).1 =
      .success registerSuccessMsg i
        (if truthy unknownTypePayload.nidNumber then nidStatusPending else nidStatusNone)) ∧
    (registerDonor 7 unknownTypePayload seededState).2.inventory = seededState.inventory ∧
    ∃ row : DonorRow, row.bloodType = unknownTypePayload.bloodType.getD "" ∧
      (registerDonor 7 unknownTypePayload seededState).2.donors =
        seededState.donors ++ [row] :=
  unknown_blood_type_frame 7 unknownTypePayload seededState
    (Reachable.init 0 Reachable.empty) (by decide) (by decide) (by decide)
    (by decide) (by decide)

/-- C10: a payload passing all four validation checks but lacking the date
of birth, the address or the zip code makes the donor insert violate a NOT
NULL column, so the handler answers with the generic store-error response
and the store is unchanged. -/
theorem missing_notnull_field_store_error (now : Nat) (p : RegistrationPayload)
    (s : DBState)
    (hv : validationPasses p = true)
    (h : p.dob = none ∨ p.address = none ∨ p.zipCode = none) :
    registerDonor now p s = (.serverError registerStoreErrorMsg, s) := by
  rw [registerDonor_validated now s hv, insertDonor_none h]

/-- C10 witness: the worked example without a date of birth on the freshly
seeded store. -/
theorem missing_notnull_field_store_error_witness :
    registerDonor 0 noDobPayload seededState =
      (.serverError registerStoreErrorMsg, seededState) :=
  missing_notnull_field_store_error 0 noDobPayload seededState (by decide) (.inl rfl)

end BloodDonor
